import Mathlib

set_option maxRecDepth 8192

/-!
Shallow embedding of `sbin/umbctl/umbctl.c` from the umb-freebsd repository:
the narrow-text / UTF-16LE codec (`_char_to_utf16`, `_utf16_to_char`), the
parameter-record builder (`_umbctl_set`), the single-shot driver (`_umbctl`),
and the batch configuration-file driver (`_umbctl_file`), together with proofs
about them.

Modelling conventions:
* UTF-16 buffers are lists of 16-bit code units (`List Nat`, each < 2^16);
  a byte capacity `outlen` of the C code corresponds to `2 * buf.length`
  (the C arrays are `uint16_t[...]`, so their byte size is always even).
* C strings are the list of their bytes before the terminating NUL.
* The host is little-endian, so `htole16` is the identity on code units.
* Fallible device interactions (socket, the three ioctls, close) are an
  explicit transport oracle.
-/

namespace Umbctl

/-- One byte of a C string as it is promoted to `uint16_t` in
`c = *in++` inside `_char_to_utf16`: `char` is signed, so bytes ≥ 0x80
sign-extend to `0xff80 .. 0xffff`. -/
def charExt (b : Nat) : Nat := if b < 128 then b else 0xFF00 + b

/-- Embedding of `_char_to_utf16` (umbctl.c lines 96-119).  The input is the
byte list of the source C string, the second argument the destination buffer
(code units); the result is the pair of the C return value and the final
contents of the destination buffer.  On success the return value is the
number of bytes written (2 per code unit, no terminator counted) and the
residual buffer is zero-filled (`memset(out, 0, outlen)`); when the
remaining capacity cannot hold the next code unit the function returns `-1`,
with all previously written code units left in place. -/
def charToUtf16 : List Nat → List Nat → Int × List Nat
  | [], buf => (0, List.replicate buf.length 0)
  | _ :: _, [] => (-1, [])
  | c :: rest, _ :: bs =>
    let r := charToUtf16 rest bs
    (if r.1 < 0 then r.1 else r.1 + 2, charExt c :: r.2)

/-- Embedding of `_utf16_to_char` (umbctl.c lines 341-357).  Reads up to
`inlen` code units from `ins`, stopping at a zero unit or when only the
terminator byte of the output buffer (of size `outlen` bytes) remains; an
ASCII unit (`isascii`, i.e. < 0x80) is copied, any other unit becomes `?`
(byte 63).  The result is the list of output bytes before the terminator. -/
def utf16ToChar : List Nat → Nat → Nat → List Nat
  | _, _, 0 => []
  | ins, inlen, m + 1 =>
    let c := if inlen = 0 then 0 else ins.headD 0
    if c = 0 then []
    else if m = 0 then []
    else (if c < 128 then c else 63) :: utf16ToChar ins.tail (inlen - 1) m

/-- Modelled from the spec: `UMB_APN_MAXLEN`, the APN buffer capacity in
code units.  The header `dev/usb/if_umbreg.h` that declares
`struct umb_parameter` is not among the sources; spec §8 (end-to-end
scenario 2) fixes the APN capacity at 64 bytes, i.e. 32 code units. -/
def UMB_APN_MAXLEN : Nat := 32

/-- Modelled from the spec: the username buffer capacity in code units
(`L_user`); the spec gives no numeric value, 32 code units are used. -/
def UMB_USERNAME_MAXLEN : Nat := 32

/-- Modelled from the spec: the password buffer capacity in code units
(`L_pass`); the spec gives no numeric value, 32 code units are used. -/
def UMB_PASSWORD_MAXLEN : Nat := 32

/-- Modelled from the spec: the PIN/PUK buffer capacity in code units
(`L_pin`); the spec gives no numeric value, 32 code units are used. -/
def UMB_PIN_MAXLEN : Nat := 32

/-- Modelled from the spec: the `MBIM_PIN_OP_ENTER` ("enter code") operation
code from `dev/usb/mbim.h`, which is not among the sources. -/
def MBIM_PIN_OP_ENTER : Nat := 0

/-- Embedding of `struct umb_parameter` (declared in `dev/usb/if_umbreg.h`):
the fields touched by `_umbctl_set`, with each text buffer kept as a list of
code units.  `sizeof(umbp->apn)` of the C code is `2 * apn.length` here. -/
structure UmbParameter where
  op : Nat
  is_puk : Nat
  apn : List Nat
  apnlen : Int
  username : List Nat
  usernamelen : Int
  password : List Nat
  passwordlen : Int
  pin : List Nat
  pinlen : Int
  roaming : Nat
  preferredclasses : Nat
deriving DecidableEq, Repr

/-- The all-zero record produced by `memset(&umbp, 0, sizeof(umbp))`. -/
def zeroParameter : UmbParameter where
  op := 0
  is_puk := 0
  apn := List.replicate UMB_APN_MAXLEN 0
  apnlen := 0
  username := List.replicate UMB_USERNAME_MAXLEN 0
  usernamelen := 0
  password := List.replicate UMB_PASSWORD_MAXLEN 0
  passwordlen := 0
  pin := List.replicate UMB_PIN_MAXLEN 0
  pinlen := 0
  roaming := 0
  preferredclasses := 0

/-- The bytes of a C string argument (the tool's inputs are narrow text). -/
def strBytes (s : String) : List Nat := s.data.map Char.toNat

/-- Embedding of `_umbctl_set` (umbctl.c lines 253-319).  The C function
scans `argv`, consuming a name/value pair for each recognized field and
mutating the record through a pointer; its `int` result is `0` on success
and `-1` (via `_error`) on failure.  Here it returns the diagnostic message
(`none` on success) paired with the final state of the record — the record
is returned even on failure because the C code mutates it in place before
the length check. -/
def umbctl_set : List String → UmbParameter → Option String × UmbParameter
  | [], umbp => (none, umbp)
  | [_], umbp => (some "Unknown or incomplete parameter", umbp)
  | a :: v :: rest, umbp =>
    if a = "apn" then
      let r := charToUtf16 (strBytes v) umbp.apn
      let u : UmbParameter := { umbp with apn := r.2, apnlen := r.1 }
      if u.apnlen < 0 ∨ 2 * (u.apn.length : Int) < u.apnlen then
        (some "APN too long", u)
      else umbctl_set rest u
    else if a = "username" then
      let r := charToUtf16 (strBytes v) umbp.username
      let u : UmbParameter := { umbp with username := r.2, usernamelen := r.1 }
      if u.usernamelen < 0 ∨ 2 * (u.username.length : Int) < u.usernamelen then
        (some "Username too long", u)
      else umbctl_set rest u
    else if a = "password" then
      let r := charToUtf16 (strBytes v) umbp.password
      let u : UmbParameter := { umbp with password := r.2, passwordlen := r.1 }
      if u.passwordlen < 0 ∨ 2 * (u.password.length : Int) < u.passwordlen then
        (some "Password too long", u)
      else umbctl_set rest u
    else if a = "pin" then
      let u0 : UmbParameter := { umbp with is_puk := 0, op := MBIM_PIN_OP_ENTER }
      let r := charToUtf16 (strBytes v) u0.pin
      let u : UmbParameter := { u0 with pin := r.2, pinlen := r.1 }
      if u.pinlen < 0 ∨ 2 * (u.pin.length : Int) < u.pinlen then
        (some "PUK code too long", u)
      else umbctl_set rest u
    else if a = "puk" then
      let u0 : UmbParameter := { umbp with is_puk := 1, op := MBIM_PIN_OP_ENTER }
      let r := charToUtf16 (strBytes v) u0.pin
      let u : UmbParameter := { u0 with pin := r.2, pinlen := r.1 }
      if u.pinlen < 0 ∨ 2 * (u.pin.length : Int) < u.pinlen then
        (some "PIN code too long", u)
      else umbctl_set rest u
    else (some "Unknown or incomplete parameter", umbp)

/-- Outcome oracle for the external collaborators of one invocation:
`socket(2)` in `_umbctl_socket`, the `SIOCGUMBPARAM` ioctl (whose success
delivers the driver's current parameter record), the `SIOCSUMBPARAM` ioctl,
the `SIOCGUMBINFO` ioctl and the final `close(2)`. -/
structure Transport where
  socketOk : Bool
  getParam : Option UmbParameter
  setParamOk : Bool
  getInfoOk : Bool
  closeOk : Bool
deriving DecidableEq, Repr

/-- The condition of the first failure block of `_umbctl` (umbctl.c lines
146-158): with a nonempty argument list, fetch the current record, apply
`_umbctl_set`, and push the record back; `true` when any of the three steps
fails. -/
def setPhaseFails (t : Transport) (args : List String) : Bool :=
  if args.isEmpty then false
  else
    match t.getParam with
    | none => true
    | some fetched =>
      match umbctl_set args fetched with
      | (some _, _) => true
      | (none, _) => !t.setParamOk

/-- Embedding of `_umbctl` (umbctl.c lines 135-172): the exit status of the
single-shot flow.  `2` when the socket cannot be created, when the
fetch/apply/push phase fails (nonempty `args` only), or when `close` fails;
`3` when the `SIOCGUMBINFO` request fails (taken when `args` is empty or
verbosity was requested); `0` otherwise. -/
def umbctl (t : Transport) (verbose : Nat) (args : List String) : Nat :=
  if t.socketOk = false then 2
  else if setPhaseFails t args = true then 2
  else if (args = [] ∨ 0 < verbose) ∧ t.getInfoOk = false then 3
  else if t.closeOk = false then 2
  else 0

/-- The token stream produced by repeated `strtok_r(buf, " ", &last)` calls
in `_umbctl_file`: the maximal runs of non-space characters, in order.  The
accumulator holds the characters of the current run in reverse. -/
def strtokSpaces : List Char → List Char → List (List Char)
  | [], cur => if cur = [] then [] else [cur.reverse]
  | c :: cs, cur =>
    if c = ' ' then
      if cur = [] then strtokSpaces cs []
      else cur.reverse :: strtokSpaces cs []
    else strtokSpaces cs (c :: cur)

/-- Tokenization of one configuration line (umbctl.c lines 195-197): split
on the space character only — the delimiter set of the `strtok_r` calls is
`" "`, so a trailing newline stays attached to the last token. -/
def tokenizeLine (s : String) : List String :=
  (strtokSpaces s.data []).map String.mk

/-- The value of `i` at the terminating store `tokens[i] = NULL` (umbctl.c
line 198): the token loop leaves `i` at the number of tokens stored, capped
by the loop bound `i < 3`, i.e. `min (number of tokens) 3`.  The C array
`tokens` has three elements, so the store is in bounds only when this index
is at most 2. -/
def tokenStoreIndex (line : String) : Nat := min (tokenizeLine line).length 3

/-- The comment check `buf[0] == '#'` of `_umbctl_file` (umbctl.c line 192). -/
def isComment (line : String) : Bool :=
  match line.data with
  | c :: _ => c == '#'
  | [] => false

/-- The line loop of `_umbctl_file` (umbctl.c lines 190-201): skip comment
lines, tokenize every other line, keep at most three tokens, and fold them
into the shared record via `_umbctl_set`, stopping at the first failing
line (`break`).  Returns the first diagnostic (`none` when every line was
processed) with the accumulated record. -/
def umbctl_file_lines : List String → UmbParameter → Option String × UmbParameter
  | [], umbp => (none, umbp)
  | line :: rest, umbp =>
    if isComment line then umbctl_file_lines rest umbp
    else
      match umbctl_set ((tokenizeLine line).take 3) umbp with
      | (none, u) => umbctl_file_lines rest u
      | (some e, u) => (some e, u)

/-- Embedding of `_umbctl_file` (umbctl.c lines 175-208): the exit status of
the batch flow.  `lines` are the lines `fgets` returns (each with its
terminating newline, so the end-of-file flag is set exactly when the whole
file was consumed); `fopenOk`/`fcloseOk` are the outcomes of
`fopen`/`fclose`.  A failing line makes the loop `break` before the
end-of-file flag is set, so `!eof` forces exit status 2.  When every line
was processed the function invokes the single-shot `_umbctl` flow on the
trailing positional arguments, discards its result, and returns 0
(`_umbctl(ifname, verbose, argc, argv); return 0;`). -/
def umbctl_file (t : Transport) (fopenOk fcloseOk : Bool) (lines : List String)
    (verbose : Nat) (args : List String) : Nat :=
  if fopenOk = false then 2
  else
    match umbctl_file_lines lines zeroParameter with
    | (some _, _) => 2
    | (none, _) =>
      if fcloseOk = false then 2
      else
        let _ := umbctl t verbose args
        0

/-- An assignment sequence given as (field name, value) pairs; `_umbctl_set`
receives it as the flat `argv` list. -/
def flattenPairs : List (String × String) → List String
  | [] => []
  | (a, v) :: ps => a :: v :: flattenPairs ps

/-- The PIN/PUK selection made by the last `pin`/`puk` assignment of a
sequence: `some true` when a `puk` assignment comes last among them,
`some false` when a `pin` assignment does, `none` when the sequence has
neither. -/
def lastSel : List (String × String) → Option Bool
  | [] => none
  | (a, _) :: ps =>
    match lastSel ps with
    | some b => some b
    | none => if a = "puk" then some true else if a = "pin" then some false else none

/-- Forward accumulator for the `is_puk` field over an assignment sequence:
starting from `x`, each `pin`/`puk` assignment overwrites the value. -/
def selIsPuk : List (String × String) → Nat → Nat
  | [], x => x
  | (a, _) :: ps, x =>
    selIsPuk ps (if a = "puk" then 1 else if a = "pin" then 0 else x)

/-- Forward accumulator for the `op` field over an assignment sequence:
each `pin`/`puk` assignment sets it to `MBIM_PIN_OP_ENTER`. -/
def selOp : List (String × String) → Nat → Nat
  | [], x => x
  | (a, _) :: ps, x =>
    selOp ps (if a = "puk" ∨ a = "pin" then MBIM_PIN_OP_ENTER else x)

/-- A 33-character value: one code unit more than any of the 32-unit field
buffers can hold. -/
def longA : String := String.mk (List.replicate 33 'a')

/-- A transport on which every device interaction succeeds and the fetched
parameter record is the zeroed one. -/
def tAllOk : Transport where
  socketOk := true
  getParam := some zeroParameter
  setParamOk := true
  getInfoOk := true
  closeOk := true

/-- A transport on which `socket(2)` itself fails, so the single-shot flow
fails immediately with exit status 2. -/
def tNoSocket : Transport where
  socketOk := false
  getParam := none
  setParamOk := false
  getInfoOk := false
  closeOk := true

/-- When the source string fits (`s.length` code units into a buffer of
`buf.length` units), `_char_to_utf16` returns `2 * s.length` bytes and the
buffer holds the encoded text followed by zero padding. -/
theorem charToUtf16_ok (s : List Nat) : ∀ buf : List Nat, s.length ≤ buf.length →
    charToUtf16 s buf
      = ((2 * s.length : Int), s.map charExt ++ List.replicate (buf.length - s.length) 0) := by
  induction s with
  | nil => intro buf _; simp [charToUtf16]
  | cons c rest ih =>
    intro buf h
    match buf with
    | [] => simp at h
    | b :: bs =>
      have h' : rest.length ≤ bs.length := by simpa using h
      have hnonneg : ¬ ((2 * rest.length : Int) < 0) := by omega
      simp [charToUtf16, ih bs h', hnonneg, Nat.succ_sub_succ]
      ring

/-- When the source string does not fit, `_char_to_utf16` returns `-1` and
the buffer holds the encoded prefix of the text (a partial write). -/
theorem charToUtf16_overflow (s : List Nat) : ∀ buf : List Nat, buf.length < s.length →
    charToUtf16 s buf = (-1, (s.take buf.length).map charExt) := by
  induction s with
  | nil => intro buf h; simp at h
  | cons c rest ih =>
    intro buf h
    match buf with
    | [] => simp [charToUtf16]
    | b :: bs =>
      have h' : bs.length < rest.length := by simpa using h
      simp [charToUtf16, ih bs h']

/-- `charExt` is the identity on NUL-free ASCII bytes. -/
theorem map_charExt_ascii (s : List Nat) (h : ∀ c ∈ s, c ≤ 127) :
    s.map charExt = s := by
  induction s with
  | nil => rfl
  | cons c rest ih =>
    have hc : c < 128 := by have := h c (by simp); omega
    simp only [List.map_cons, charExt, if_pos hc]
    rw [ih fun d hd => h d (by simp [hd])]

/-- One decoding step of `_utf16_to_char` on a nonzero leading code unit,
with input units remaining and more than the terminator byte of output
space left. -/
theorem utf16ToChar_cons (c : Nat) (ins : List Nat) (inlen m : Nat)
    (hc : c ≠ 0) (hm : m ≠ 0) (hin : inlen ≠ 0) :
    utf16ToChar (c :: ins) inlen (m + 1)
      = (if c < 128 then c else 63) :: utf16ToChar ins (inlen - 1) m := by
  simp [utf16ToChar, hin, hc, hm]

/-- Decoding stops at the leading zero unit of the residual padding (or at
an exhausted code-unit count). -/
theorem utf16ToChar_zeros (k inlen outlen : Nat) :
    utf16ToChar (List.replicate k 0) inlen outlen = [] := by
  match outlen with
  | 0 => rfl
  | m + 1 =>
    match k with
    | 0 => simp [utf16ToChar]
    | k + 1 => simp [utf16ToChar, List.replicate]

/-- Decoding an ASCII code-unit sequence followed by zero padding, with the
code-unit count covering the whole buffer and an output buffer that has room
for the text plus the terminator, recovers the text. -/
theorem utf16ToChar_ascii_pad (s : List Nat) :
    ∀ (k outlen : Nat), (∀ c ∈ s, 1 ≤ c ∧ c ≤ 127) → s.length + 1 ≤ outlen →
      utf16ToChar (s ++ List.replicate k 0) (s.length + k) outlen = s := by
  induction s with
  | nil => intro k outlen _ _; simpa using utf16ToChar_zeros k k outlen
  | cons c rest ih =>
    intro k outlen hascii hout
    match outlen, hout with
    | m + 1, hout =>
      have hc1 : 1 ≤ c := (hascii c (by simp)).1
      have hc2 : c ≤ 127 := (hascii c (by simp)).2
      have hm : rest.length + 1 ≤ m := by simpa using hout
      have hrest : ∀ d ∈ rest, 1 ≤ d ∧ d ≤ 127 := fun d hd => hascii d (by simp [hd])
      have hstep := utf16ToChar_cons c (rest ++ List.replicate k 0)
        ((c :: rest).length + k) m (by omega) (by omega) (by simp)
      simp only [List.cons_append] at hstep ⊢
      rw [hstep]
      have harith : (c :: rest).length + k - 1 = rest.length + k := by
        simp [Nat.succ_add]
      rw [harith, ih k m hrest hm, if_pos (by omega : c < 128)]

/-- One successful step of `_umbctl_set` over a name/value pair: it hands a
record to the processing of the remaining arguments whose `is_puk` and `op`
fields are those of the incoming record, overwritten when the pair is a
`pin` or `puk` assignment. -/
theorem umbctl_set_cons_ok (a v : String) (rest : List String) (umbp u : UmbParameter)
    (h : umbctl_set (a :: v :: rest) umbp = (none, u)) :
    ∃ u1 : UmbParameter, umbctl_set rest u1 = (none, u) ∧
      u1.is_puk = (if a = "puk" then 1 else if a = "pin" then 0 else umbp.is_puk) ∧
      u1.op = (if a = "puk" ∨ a = "pin" then MBIM_PIN_OP_ENTER else umbp.op) := by
  simp only [umbctl_set] at h
  split_ifs at h <;>
    first
    | exact Option.noConfusion (congrArg Prod.fst h)
    | exact ⟨_, h, by simp_all, by simp_all⟩

/-- Processing an assignment sequence with `_umbctl_set` leaves `is_puk`
and `op` at the values reached by folding the `pin`/`puk` assignments over
the incoming record, in order. -/
theorem umbctl_set_pin_puk_accum (ps : List (String × String)) :
    ∀ umbp u : UmbParameter, umbctl_set (flattenPairs ps) umbp = (none, u) →
      u.is_puk = selIsPuk ps umbp.is_puk ∧ u.op = selOp ps umbp.op := by
  induction ps with
  | nil =>
    intro umbp u h
    simp only [flattenPairs, umbctl_set] at h
    have h2 : umbp = u := congrArg Prod.snd h
    subst h2
    exact ⟨rfl, rfl⟩
  | cons p ps ih =>
    obtain ⟨a, v⟩ := p
    intro umbp u h
    simp only [flattenPairs] at h
    obtain ⟨u1, h1, hpuk, hop⟩ := umbctl_set_cons_ok a v _ umbp u h
    obtain ⟨e1, e2⟩ := ih u1 u h1
    constructor
    · rw [e1, hpuk]; rfl
    · rw [e2, hop]; rfl

/-- The forward `is_puk` fold equals the selection of the last `pin`/`puk`
assignment, or the start value when the sequence has neither. -/
theorem selIsPuk_lastSel (ps : List (String × String)) : ∀ x : Nat,
    selIsPuk ps x
      = (match lastSel ps with
          | some true => 1
          | some false => 0
          | none => x) := by
  induction ps with
  | nil => intro x; rfl
  | cons p ps ih =>
    obtain ⟨a, v⟩ := p
    intro x
    simp only [selIsPuk, lastSel, ih]
    rcases hls : lastSel ps with - | b
    · simp only [hls]
      split_ifs <;> simp_all
    · cases b <;> simp [hls]

/-- The forward `op` fold sets `MBIM_PIN_OP_ENTER` exactly when the
sequence has a `pin`/`puk` assignment. -/
theorem selOp_lastSel (ps : List (String × String)) : ∀ x : Nat,
    selOp ps x
      = (match lastSel ps with
          | some _ => MBIM_PIN_OP_ENTER
          | none => x) := by
  induction ps with
  | nil => intro x; rfl
  | cons p ps ih =>
    obtain ⟨a, v⟩ := p
    intro x
    simp only [selOp, lastSel, ih]
    rcases hls : lastSel ps with - | b
    · simp only [hls]
      split_ifs <;> simp_all
    · simp [hls]

/-- A sequence containing a `pin` assignment makes a PIN/PUK selection. -/
theorem lastSel_isSome_of_pin (ps : List (String × String))
    (h : "pin" ∈ ps.map Prod.fst) : lastSel ps ≠ none := by
  induction ps with
  | nil => simp at h
  | cons p ps ih =>
    obtain ⟨a, v⟩ := p
    simp only [List.map_cons, List.mem_cons] at h
    simp only [lastSel]
    rcases hls : lastSel ps with - | b
    · rcases h with h | h
      · subst h; simp
      · exact absurd hls (ih h)
    · simp

/-- Claim C1, counterexample: a run whose only failure is a field-too-long
error (a 33-character APN against the 32-unit buffer, with every device
interaction succeeding) exits with status 2, not with 3 or 4 as the claim
requires for field-too-long errors. -/
theorem c1_counterexample :
    umbctl tAllOk 0 ["apn", longA] = 2 ∧
    ¬(umbctl tAllOk 0 ["apn", longA] = 3 ∨ umbctl tAllOk 0 ["apn", longA] = 4) := by
  decide

/-- Claim C1, amended: the single-shot flow `_umbctl` exits with 0 on
success, 2 on a socket, device or parameter error (field-too-long errors
included), or 3 when the `SIOCGUMBINFO` request fails; the batch flow
`_umbctl_file` exits with 0 or 2.  Together with the usage error status 1
issued by `main`, every exit status is one of 0, 1, 2, 3, and no status
distinguishes which field was too long. -/
theorem c1_amended_exit_codes :
    (∀ (t : Transport) (verbose : Nat) (args : List String),
      umbctl t verbose args = 0 ∨ umbctl t verbose args = 2 ∨ umbctl t verbose args = 3) ∧
    (∀ (t : Transport) (fo fc : Bool) (lines : List String) (verbose : Nat)
      (args : List String),
      umbctl_file t fo fc lines verbose args = 0 ∨
        umbctl_file t fo fc lines verbose args = 2) := by
  constructor
  · intro t v args
    unfold umbctl
    split_ifs <;> simp
  · intro t fo fc lines v args
    simp only [umbctl_file]
    rcases umbctl_file_lines lines zeroParameter with ⟨_ | e, u⟩ <;>
      split_ifs <;> simp

/-- Claim C2, counterexample: applying the recognized assignment
`apn := longA` (33 code units against a 32-unit buffer) to the zeroed live
record fails with the overflow diagnostic, yet the record's destination
buffer is not left untouched — the encoded 32-unit prefix has been written
over it. -/
theorem c2_counterexample :
    (umbctl_set ["apn", longA] zeroParameter).1 = some "APN too long" ∧
    (umbctl_set ["apn", longA] zeroParameter).2.apn ≠ zeroParameter.apn := by
  decide

/-- Claim C2, amended: for every recognized field assignment (`apn`,
`username`, `password`, `pin`, `puk`) whose value's code-unit count exceeds
that field's buffer capacity, the operation fails with the overflow error,
but the live record is modified on the error path: the destination buffer
receives the encoded prefix of the value (a partial write) and the field's
length is set to -1; for `pin`/`puk` the `is_puk` and `op` fields have also
already been updated. -/
theorem c2_amended_partial_write :
    (∀ (v : String) (rest : List String) (umbp : UmbParameter),
      umbp.apn.length < (strBytes v).length →
      umbctl_set ("apn" :: v :: rest) umbp
        = (some "APN too long",
           { umbp with
               apn := ((strBytes v).take umbp.apn.length).map charExt
               apnlen := -1 })) ∧
    (∀ (v : String) (rest : List String) (umbp : UmbParameter),
      umbp.username.length < (strBytes v).length →
      umbctl_set ("username" :: v :: rest) umbp
        = (some "Username too long",
           { umbp with
               username := ((strBytes v).take umbp.username.length).map charExt
               usernamelen := -1 })) ∧
    (∀ (v : String) (rest : List String) (umbp : UmbParameter),
      umbp.password.length < (strBytes v).length →
      umbctl_set ("password" :: v :: rest) umbp
        = (some "Password too long",
           { umbp with
               password := ((strBytes v).take umbp.password.length).map charExt
               passwordlen := -1 })) ∧
    (∀ (v : String) (rest : List String) (umbp : UmbParameter),
      umbp.pin.length < (strBytes v).length →
      umbctl_set ("pin" :: v :: rest) umbp
        = (some "PUK code too long",
           { umbp with
               is_puk := 0
               op := MBIM_PIN_OP_ENTER
               pin := ((strBytes v).take umbp.pin.length).map charExt
               pinlen := -1 })) ∧
    (∀ (v : String) (rest : List String) (umbp : UmbParameter),
      umbp.pin.length < (strBytes v).length →
      umbctl_set ("puk" :: v :: rest) umbp
        = (some "PIN code too long",
           { umbp with
               is_puk := 1
               op := MBIM_PIN_OP_ENTER
               pin := ((strBytes v).take umbp.pin.length).map charExt
               pinlen := -1 })) := by
  refine ⟨fun v rest umbp h => ?_, fun v rest umbp h => ?_, fun v rest umbp h => ?_,
    fun v rest umbp h => ?_, fun v rest umbp h => ?_⟩
  · have hov := charToUtf16_overflow (strBytes v) umbp.apn h
    simp [umbctl_set, hov]
  · have hov := charToUtf16_overflow (strBytes v) umbp.username h
    simp [umbctl_set, hov]
  · have hov := charToUtf16_overflow (strBytes v) umbp.password h
    simp [umbctl_set, hov]
  · have hov := charToUtf16_overflow (strBytes v) umbp.pin h
    simp [umbctl_set, hov]
  · have hov := charToUtf16_overflow (strBytes v) umbp.pin h
    simp [umbctl_set, hov]

/-- Witness for `c2_amended_partial_write`: each of the five conjuncts
applied to the concrete 33-character value against the zeroed record. -/
theorem c2_amended_witness :
    umbctl_set ["apn", longA] zeroParameter
      = (some "APN too long",
         { zeroParameter with
             apn := ((strBytes longA).take zeroParameter.apn.length).map charExt
             apnlen := -1 }) ∧
    umbctl_set ["username", longA] zeroParameter
      = (some "Username too long",
         { zeroParameter with
             username := ((strBytes longA).take zeroParameter.username.length).map charExt
             usernamelen := -1 }) ∧
    umbctl_set ["password", longA] zeroParameter
      = (some "Password too long",
         { zeroParameter with
             password := ((strBytes longA).take zeroParameter.password.length).map charExt
             passwordlen := -1 }) ∧
    umbctl_set ["pin", longA] zeroParameter
      = (some "PUK code too long",
         { zeroParameter with
             is_puk := 0
             op := MBIM_PIN_OP_ENTER
             pin := ((strBytes longA).take zeroParameter.pin.length).map charExt
             pinlen := -1 }) ∧
    umbctl_set ["puk", longA] zeroParameter
      = (some "PIN code too long",
         { zeroParameter with
             is_puk := 1
             op := MBIM_PIN_OP_ENTER
             pin := ((strBytes longA).take zeroParameter.pin.length).map charExt
             pinlen := -1 }) :=
  ⟨c2_amended_partial_write.1 longA [] zeroParameter (by decide),
   c2_amended_partial_write.2.1 longA [] zeroParameter (by decide),
   c2_amended_partial_write.2.2.1 longA [] zeroParameter (by decide),
   c2_amended_partial_write.2.2.2.1 longA [] zeroParameter (by decide),
   c2_amended_partial_write.2.2.2.2 longA [] zeroParameter (by decide)⟩

/-- Claim C3: in batch mode the single-shot flow invoked after the batch
lines can fail while the invocation still exits with status 0 — here the
socket cannot even be created, so `_umbctl` returns 2, yet `_umbctl_file`
discards that result (`_umbctl(ifname, verbose, argc, argv); return 0;`)
and reports success. -/
theorem c3_masked_failure :
    umbctl tNoSocket 0 ["apn", "internet"] = 2 ∧
    umbctl_file tNoSocket true true [] 0 ["apn", "internet"] = 0 := by
  decide

/-- Claim C4: the overflow diagnostics of the `pin` and `puk` branches of
`_umbctl_set` are swapped — an overlong `pin` value is reported as
"PUK code too long" and an overlong `puk` value as "PIN code too long" —
while `apn`, `username` and `password` are reported correctly. -/
theorem c4_swapped_pin_puk_messages :
    (umbctl_set ["pin", longA] zeroParameter).1 = some "PUK code too long" ∧
    (umbctl_set ["puk", longA] zeroParameter).1 = some "PIN code too long" ∧
    (umbctl_set ["apn", longA] zeroParameter).1 = some "APN too long" ∧
    (umbctl_set ["username", longA] zeroParameter).1 = some "Username too long" ∧
    (umbctl_set ["password", longA] zeroParameter).1 = some "Password too long" := by
  decide

/-- Claim C5, counterexample: the batch line "apn internet\n" applies
cleanly to the zeroed record, but adding a third token — the line
"apn internet x\n", whose first two tokens still form a valid recognized
assignment — changes the outcome from success to the unknown-parameter
error: the third token is not ignored. -/
theorem c5_counterexample :
    (umbctl_file_lines ["apn internet\n"] zeroParameter).1 = none ∧
    (umbctl_file_lines ["apn internet x\n"] zeroParameter).1
      = some "Unknown or incomplete parameter" := by
  decide

/-- Claim C5, amended: every non-comment line is split into at most three
space-separated tokens, but a third token is not ignored: whenever the
first two tokens alone would apply successfully, the presence of any third
token makes the line fail with "Unknown or incomplete parameter" (the
record keeping the first assignment's effect). -/
theorem c5_amended_third_token_errors (a v w : String) (umbp u : UmbParameter)
    (h : umbctl_set [a, v] umbp = (none, u)) :
    umbctl_set [a, v, w] umbp = (some "Unknown or incomplete parameter", u) := by
  simp only [umbctl_set] at h ⊢
  split_ifs at h ⊢ <;>
    first
    | exact Option.noConfusion (congrArg Prod.fst h)
    | exact congrArg (Prod.mk _) (congrArg Prod.snd h)

/-- Witness for `c5_amended_third_token_errors` on the tokens of the batch
line "apn internet x\n". -/
theorem c5_amended_witness :
    umbctl_set ["apn", "internet", "x\n"] zeroParameter
      = (some "Unknown or incomplete parameter",
         (umbctl_set ["apn", "internet"] zeroParameter).2) :=
  c5_amended_third_token_errors "apn" "internet" "x\n" zeroParameter
    (umbctl_set ["apn", "internet"] zeroParameter).2 (by decide)

/-- Claim C6: for every NUL-free ASCII text (each byte in 0x01..0x7F) of at
most capacity/2 code units, decoding the encoded buffer — with the code-unit
count covering the buffer and an output buffer large enough for the text
plus its terminator — yields the original text. -/
theorem c6_roundtrip (s buf : List Nat) (outlen : Nat)
    (hascii : ∀ c ∈ s, 1 ≤ c ∧ c ≤ 127)
    (hlen : s.length ≤ buf.length)
    (hout : s.length + 1 ≤ outlen) :
    utf16ToChar (charToUtf16 s buf).2 buf.length outlen = s := by
  rw [charToUtf16_ok s buf hlen]
  have h2 := utf16ToChar_ascii_pad s (buf.length - s.length) outlen hascii hout
  rw [Nat.add_sub_cancel' hlen] at h2
  simpa [map_charExt_ascii s fun c hc => (hascii c hc).2] using h2

/-- Witness for `c6_roundtrip`: the text "hi" through a 4-unit buffer. -/
theorem c6_roundtrip_witness :
    utf16ToChar (charToUtf16 [104, 105] (List.replicate 4 0)).2
      (List.replicate 4 0).length 3 = [104, 105] :=
  c6_roundtrip [104, 105] (List.replicate 4 0) 3 (by decide) (by decide) (by decide)

/-- Claim C7: encoding a text whose byte length is strictly below the
destination capacity succeeds returning the number of bytes written (two
per character, no terminator counted), and every code unit of the
destination beyond the written text is zero. -/
theorem c7_residual_clearing (s buf : List Nat)
    (h : 2 * s.length < 2 * buf.length) :
    (charToUtf16 s buf).1 = (2 * s.length : Int) ∧
    (charToUtf16 s buf).2.drop s.length = List.replicate (buf.length - s.length) 0 := by
  have hle : s.length ≤ buf.length := by omega
  rw [charToUtf16_ok s buf hle]
  refine ⟨rfl, ?_⟩
  have hlm : (s.map charExt).length = s.length := List.length_map s charExt
  calc (s.map charExt ++ List.replicate (buf.length - s.length) 0).drop s.length
      = (s.map charExt ++ List.replicate (buf.length - s.length) 0).drop
          (s.map charExt).length := by rw [hlm]
    _ = List.replicate (buf.length - s.length) 0 := List.drop_left _ _

/-- Witness for `c7_residual_clearing`: one character into a 3-unit buffer. -/
theorem c7_residual_witness :
    (charToUtf16 [104] (List.replicate 3 0)).1 = (2 : Int) ∧
    (charToUtf16 [104] (List.replicate 3 0)).2.drop 1 = List.replicate 2 0 :=
  c7_residual_clearing [104] (List.replicate 3 0) (by decide)

/-- Claim C8: for every assignment sequence containing both a `puk` and a
`pin` assignment, a successful apply leaves the record's `is_puk` equal to
the selection of the last of the two — 0 when `pin` came last, 1 when `puk`
came last — and leaves the operation field at `MBIM_PIN_OP_ENTER`
("enter code"). -/
theorem c8_pin_puk_exclusivity (ps : List (String × String)) (umbp u : UmbParameter)
    (hpin : "pin" ∈ ps.map Prod.fst) (hpuk : "puk" ∈ ps.map Prod.fst)
    (hok : umbctl_set (flattenPairs ps) umbp = (none, u)) :
    (lastSel ps = some false → u.is_puk = 0) ∧
    (lastSel ps = some true → u.is_puk = 1) ∧
    u.op = MBIM_PIN_OP_ENTER := by
  obtain ⟨h1, h2⟩ := umbctl_set_pin_puk_accum ps umbp u hok
  have hne := lastSel_isSome_of_pin ps hpin
  refine ⟨fun hf => ?_, fun ht => ?_, ?_⟩
  · rw [h1, selIsPuk_lastSel, hf]
  · rw [h1, selIsPuk_lastSel, ht]
  · rw [h2, selOp_lastSel]
    rcases hls : lastSel ps with - | b
    · exact absurd hls hne
    · rfl

/-- Witness for `c8_pin_puk_exclusivity`: `puk` then `pin` leaves
`is_puk = 0` and `op = MBIM_PIN_OP_ENTER`. -/
theorem c8_pin_puk_witness :
    (umbctl_set (flattenPairs [("puk", "12345678"), ("pin", "1234")]) zeroParameter).2.is_puk
        = 0 ∧
    (umbctl_set (flattenPairs [("puk", "12345678"), ("pin", "1234")]) zeroParameter).2.op
        = MBIM_PIN_OP_ENTER := by
  have h := c8_pin_puk_exclusivity [("puk", "12345678"), ("pin", "1234")] zeroParameter
    (umbctl_set (flattenPairs [("puk", "12345678"), ("pin", "1234")]) zeroParameter).2
    (by decide) (by decide) (by decide)
  exact ⟨h.1 (by decide), h.2.2⟩

/-- Claim C9: the terminating store `tokens[i] = NULL` of the batch-mode
token loop uses index `min (token count) 3`; on a line with three
space-separated tokens the index reaches 3, outside the bounds of the
three-element `tokens` array (valid indices 0..2). -/
theorem c9_token_store_out_of_bounds :
    tokenStoreIndex "apn internet x\n" = 3 ∧
    ¬ tokenStoreIndex "apn internet x\n" ≤ 2 := by
  decide

/-- Claim C10: batch-mode tokenization splits on the space character only
and keeps the line terminator, so the line "apn internet\n" assigns the APN
field the 9-character value "internet\n" — newline (byte 10) included —
encoded as 18 bytes followed by zero padding. -/
theorem c10_newline_retained :
    tokenizeLine "apn internet\n" = ["apn", "internet\n"] ∧
    strBytes "internet\n" = [105, 110, 116, 101, 114, 110, 101, 116, 10] ∧
    umbctl_file_lines ["apn internet\n"] zeroParameter
      = (none,
         { zeroParameter with
             apn := strBytes "internet\n" ++ List.replicate 23 0
             apnlen := 18 }) := by
  decide

end Umbctl

